import Mathlib

/-!
Verification development for the RelayForLifeScraper repository (src/main.py).

The program scrapes a fundraising site, aggregates per-team donation data and
derives raffle-ticket counts.  This file gives a shallow embedding of the
logic of src/main.py:

* monetary amounts are modelled as exact rationals (Python floats hold the
  decimal values appearing on the pages);
* the text of a loaded page is modelled by the structures DetailPage and
  Block, where an Option field is none exactly when the corresponding
  Selenium element lookup times out or raises;
* Python dictionaries (insertion ordered) are modelled by association lists.

Each definition is translated from the function of src/main.py named in its
doc comment.
-/

namespace RelayForLife

/-- Embeds calculate_tickets (src/main.py lines 12-21):
    return 0 if amount < 30, otherwise min(floor((amount - 30) / 20) + 1, 50). -/
def calculate_tickets (amount : ℚ) : ℤ :=
  if amount < 30 then 0
  else min (⌊(amount - 30) / 20⌋ + 1) 50

/-- C1: for every amount, calculate_tickets returns 0 when amount < 30 and
otherwise min(floor((amount - 30) / 20) + 1, 50); in particular it maps
30 to 1, 49.999 to 1, 50 to 2, 1030 to 50 and 10000 to 50. -/
theorem C1_calculate_tickets_formula :
    (∀ amount : ℚ, amount < 30 → calculate_tickets amount = 0) ∧
    (∀ amount : ℚ, ¬ amount < 30 →
      calculate_tickets amount = min (⌊(amount - 30) / 20⌋ + 1) 50) ∧
    calculate_tickets 30 = 1 ∧
    calculate_tickets 49.999 = 1 ∧
    calculate_tickets 50 = 2 ∧
    calculate_tickets 1030 = 50 ∧
    calculate_tickets 10000 = 50 := by
  refine ⟨fun a h => by simp [calculate_tickets, h],
    fun a h => by simp [calculate_tickets, h], ?_, ?_, ?_, ?_, ?_⟩ <;>
    with_unfolding_all decide

/-- Witness for C1: the two conditional clauses of the theorem evaluated at
concrete amounts 10 and 50. -/
theorem C1_calculate_tickets_formula_witness :
    calculate_tickets 10 = 0 ∧
    calculate_tickets 50 = min (⌊((50:ℚ) - 30) / 20⌋ + 1) 50 :=
  ⟨C1_calculate_tickets_formula.1 10 (by norm_num),
   C1_calculate_tickets_formula.2.1 50 (by norm_num)⟩

/-- C10: for every (finite) input amount, calculate_tickets returns an
integer in the inclusive range 0 to 50; being a total Lean function it
raises nothing. -/
theorem C10_calculate_tickets_range (amount : ℚ) :
    0 ≤ calculate_tickets amount ∧ calculate_tickets amount ≤ 50 := by
  unfold calculate_tickets
  split
  · exact ⟨le_refl 0, by norm_num⟩
  · rename_i h
    refine ⟨le_min ?_ (by norm_num), min_le_right _ _⟩
    have h30 : (30:ℚ) ≤ amount := le_of_not_lt h
    have hq : (0:ℚ) ≤ (amount - 30) / 20 := by
      apply div_nonneg (by linarith) (by norm_num)
    have hf : (0:ℤ) ≤ ⌊(amount - 30) / 20⌋ := Int.le_floor.mpr (by exact_mod_cast hq)
    omega

/-- Models Python str.strip() (used throughout scrape_team_members):
removes leading and trailing whitespace. -/
def pyStrip (s : String) : String :=
  ⟨((s.data.dropWhile Char.isWhitespace).reverse.dropWhile Char.isWhitespace).reverse⟩

/-- Models Python str.lower() (src/main.py line 108) on the ASCII text the
page contains. -/
def pyLower (s : String) : String :=
  ⟨s.data.map Char.toLower⟩

/-- Embeds the text cleanup of src/main.py line 101:
amount_el.text.strip().replace("$", "").replace(",", "").  Replacing every
occurrence of a one-character pattern by the empty string is removal of that
character. -/
def stripAmount (s : String) : String :=
  ⟨(pyStrip s).data.filter (fun c => !(c == '$' || c == ','))⟩

/-- Value of a digit string, most significant digit first. -/
def digitsVal (cs : List Char) : ℕ :=
  cs.foldl (fun n c => 10 * n + (c.toNat - 48)) 0

/-- Power of ten as an integer denominator. -/
def pow10 : ℕ → ℤ
  | 0 => 1
  | n + 1 => 10 * pow10 n

/-- Models Python float(s) (src/main.py line 103) on its plain decimal
fragment: an optional sign, an integer part and an optional fractional part,
with at least one digit; the value is the exact decimal.  The remaining
float() forms (exponents, inf, nan, underscores) never carry a donation
amount and are modelled as parse failures, which the caller turns into the
same 0.0 the except ValueError branch produces. -/
def parseFloat (s : String) : Option ℚ :=
  let (neg, rest) :=
    match s.data with
    | '-' :: t => (true, t)
    | '+' :: t => (false, t)
    | t => (false, t)
  let ip := rest.takeWhile Char.isDigit
  let rest2 := rest.dropWhile Char.isDigit
  let build : List Char → Option ℚ := fun fp =>
    if ip.isEmpty && fp.isEmpty then none
    else
      let n : ℤ := (digitsVal ip : ℤ) * pow10 fp.length + (digitsVal fp : ℤ)
      some (Rat.divInt (if neg then -n else n) (pow10 fp.length))
  match rest2 with
  | [] => build []
  | '.' :: fp => if fp.all Char.isDigit then build fp else none
  | _ => none

/-- Embeds src/main.py lines 101-105: clean the amount text, parse it, and
fall back to 0.0 when float() raises ValueError. -/
def parseAmount (s : String) : ℚ :=
  (parseFloat (stripAmount s)).getD 0

/-- One participant block of a team detail page (src/main.py lines 95-118).
A field is none when the corresponding find_element call raises, which the
loop's except branch turns into skipping the block. -/
structure Block where
  nameText : Option String
  amountText : Option String
deriving DecidableEq

/-- A member record as built on src/main.py lines 111-115. -/
structure MemberRecord where
  full_name : String
  amount : ℚ
  team : String
deriving DecidableEq

/-- Embeds one iteration of the block loop of scrape_team_members
(src/main.py lines 95-118) acting on the accumulated (members, team_gifts)
state.  A block whose stripped name lowercases to "team gifts" stores its
amount as team_gifts; any other complete block appends a member; a block
missing a field is skipped. -/
def processBlock (team : String) (acc : List MemberRecord × ℚ) (b : Block) :
    List MemberRecord × ℚ :=
  match b.nameText, b.amountText with
  | some nt, some amt =>
    let name := pyStrip nt
    let amount := parseAmount amt
    if pyLower name = "team gifts" then (acc.1, amount)
    else (acc.1 ++ [⟨name, amount, team⟩], acc.2)
  | _, _ => acc

/-- Embeds the whole block loop of scrape_team_members
(src/main.py lines 92-118), started from members = [] and team_gifts = 0.0. -/
def processBlocks (team : String) (bs : List Block) : List MemberRecord × ℚ :=
  bs.foldl (processBlock team) ([], 0)

/-- A loaded team detail page as scrape_team_members sees it.  Each Option
field is none exactly when the corresponding wait or lookup fails:
primaryHeader is the div.user-info h2 element, secondaryHeader the
h1#personal_header element, memberBlocks the list of div.item blocks (none
when the 15 second wait for the container times out). -/
structure DetailPage where
  primaryHeader : Option String
  secondaryHeader : Option String
  memberBlocks : Option (List Block)
deriving DecidableEq

/-- Embeds STEP 1 of scrape_team_members (src/main.py lines 65-77): primary
header, then secondary header, then the literal "Unknown Team". -/
def resolveTeamName (p : DetailPage) : String :=
  match p.primaryHeader with
  | some t => pyStrip t
  | none =>
    match p.secondaryHeader with
    | some t => pyStrip t
    | none => "Unknown Team"

/-- Embeds scrape_team_members (src/main.py lines 53-120): resolve the team
name, and either return ([], 0.0) when the member container wait times out
(lines 79-88) or run the block loop. -/
def scrape_team_members (p : DetailPage) : String × List MemberRecord × ℚ :=
  let name := resolveTeamName p
  match p.memberBlocks with
  | none => (name, [], 0)
  | some bs => (name, processBlocks name bs)

/-- One entry of the team_data dictionary of main (src/main.py line 132):
a dict with keys "members", "total" and "team_gifts". -/
structure TeamAggregate where
  members : List String
  total : ℚ
  team_gifts : ℚ
deriving DecidableEq

/-- The team_data dictionary, keyed by team name.  Python dictionaries keep
insertion order, so it is modelled by an association list. -/
abbrev TeamMap := List (String × TeamAggregate)

/-- Dictionary key lookup on the association list (the subscript and the
membership test of src/main.py lines 137-152). -/
def lookupTeam : TeamMap → String → Option TeamAggregate
  | [], _ => none
  | (k, a) :: rest, name => if k = name then some a else lookupTeam rest name

/-- Dictionary value update at an existing key; inserts at the end when the
key is absent, as a Python dict assignment does. -/
def updateTeam : TeamMap → String → TeamAggregate → TeamMap
  | [], name, a => [(name, a)]
  | (k, e) :: rest, name, a =>
    if k = name then (k, a) :: rest else (k, e) :: updateTeam rest name a

/-- Embeds src/main.py lines 136-140: create the entry on first sight of a
team name (members = [], total = 0.0, team_gifts = this visit's value), and
otherwise overwrite only the team_gifts field. -/
def initTeam (td : TeamMap) (name : String) (gifts : ℚ) : TeamMap :=
  match lookupTeam td name with
  | none => td ++ [(name, ⟨[], 0, gifts⟩)]
  | some e => updateTeam td name { e with team_gifts := gifts }

/-- Embeds one iteration of the member loop of main (src/main.py
lines 142-149) on the team_data side: append the member's name and add the
member's amount to the total. -/
def addMember (name : String) (td : TeamMap) (m : MemberRecord) : TeamMap :=
  match lookupTeam td name with
  | some e =>
    updateTeam td name
      { e with members := e.members ++ [m.full_name], total := e.total + m.amount }
  | none => td

/-- Embeds src/main.py line 152: add this visit's team gifts to the total. -/
def addGifts (td : TeamMap) (name : String) (gifts : ℚ) : TeamMap :=
  match lookupTeam td name with
  | some e => updateTeam td name { e with total := e.total + gifts }
  | none => td

/-- One iteration of the scrape loop of main as seen by the aggregation
state: the team name the visit resolved to, the member records and the team
gifts value scrape_team_members returned. -/
structure Visit where
  team_name : String
  members : List MemberRecord
  team_gifts : ℚ
deriving DecidableEq

/-- Sum of the amounts of a list of member records. -/
def amountSum (ms : List MemberRecord) : ℚ :=
  (ms.map MemberRecord.amount).sum

/-- Embeds the body of the scrape loop of main (src/main.py lines 134-152)
acting on team_data. -/
def aggStep (td : TeamMap) (v : Visit) : TeamMap :=
  addGifts (v.members.foldl (addMember v.team_name) (initTeam td v.team_name v.team_gifts))
    v.team_name v.team_gifts

/-- Embeds the whole scrape loop of main (src/main.py lines 131-152):
participant_data collects every member in visit order, team_data is folded
with aggStep. -/
def runAgg (visits : List Visit) : List MemberRecord × TeamMap :=
  visits.foldl (fun acc v => (acc.1 ++ v.members, aggStep acc.2 v)) ([], [])

/-- The team_data dictionary after the scrape loop. -/
def runTeams (visits : List Visit) : TeamMap :=
  (runAgg visits).2

/-- One row of the Participants sheet (src/main.py lines 157-168). -/
structure ParticipantRow where
  full_name : String
  team : String
  amount : ℚ
  attendance : String
  shirt_size : String
  raffle_tickets : ℤ
deriving DecidableEq

/-- Embeds the participants loop of main (src/main.py lines 157-168). -/
def buildParticipantRows (pd : List MemberRecord) : List ParticipantRow :=
  pd.map (fun p => ⟨p.full_name, p.team, p.amount, "", "", calculate_tickets p.amount⟩)

/-- One row of the Teams sheet (src/main.py lines 173-184). -/
structure TeamRow where
  team_name : String
  membersStr : String
  team_gifts : ℚ
  total : ℚ
  raffle_tickets : ℤ
  camera_collected : String
deriving DecidableEq

/-- Embeds the teams loop of main (src/main.py lines 173-184): tickets come
from the team_gifts field, not from the total. -/
def buildTeamRows (td : TeamMap) : List TeamRow :=
  td.map (fun e =>
    ⟨e.1, String.intercalate ", " e.2.members, e.2.team_gifts, e.2.total,
      calculate_tickets e.2.team_gifts, ""⟩)

/-- The visits of a run that were recorded under team name k
(spec wording: the member records folded into that team). -/
def visitsFor (visits : List Visit) (k : String) : List Visit :=
  visits.filter (fun v => v.team_name = k)

/-- Names of all members folded into team k, in accumulation order. -/
def memberNamesFor (visits : List Visit) (k : String) : List String :=
  (visitsFor visits k).flatMap (fun v => v.members.map MemberRecord.full_name)

/-- Sum of the amounts of all members folded into team k. -/
def amountsFor (visits : List Visit) (k : String) : ℚ :=
  ((visitsFor visits k).map (fun v => amountSum v.members)).sum

/-- The team_gifts values of the visits recorded under team k, in order. -/
def giftsListFor (visits : List Visit) (k : String) : List ℚ :=
  (visitsFor visits k).map Visit.team_gifts

/-- Sum of the team_gifts values of all visits recorded under team k. -/
def giftsSumFor (visits : List Visit) (k : String) : ℚ :=
  (giftsListFor visits k).sum

theorem lookupTeam_updateTeam (td : TeamMap) (name k : String) (a : TeamAggregate) :
    lookupTeam (updateTeam td name a) k =
      if k = name then some a else lookupTeam td k := by
  induction td with
  | nil =>
    simp only [updateTeam, lookupTeam]
    by_cases h : k = name
    · rw [if_pos h.symm, if_pos h]
    · rw [if_neg (fun hh => h hh.symm), if_neg h]
  | cons p t ih =>
    obtain ⟨k1, e⟩ := p
    simp only [updateTeam]
    by_cases h1 : k1 = name
    · rw [if_pos h1]
      subst h1
      simp only [lookupTeam]
      by_cases h2 : k1 = k
      · rw [if_pos h2, if_pos h2.symm]
      · rw [if_neg h2, if_neg (fun hh => h2 hh.symm), if_neg h2]
    · rw [if_neg h1]
      simp only [lookupTeam, ih]
      by_cases h2 : k1 = k
      · rw [if_pos h2, if_neg (fun hh => h1 (h2.trans hh)), if_pos h2]
      · rw [if_neg h2]
        by_cases h3 : k = name
        · rw [if_pos h3, if_pos h3]
        · rw [if_neg h3, if_neg h3, if_neg h2]

theorem lookupTeam_append (td l : TeamMap) (k : String) :
    lookupTeam (td ++ l) k = ((lookupTeam td k).elim (lookupTeam l k) some) := by
  induction td with
  | nil => simp [lookupTeam]
  | cons p t ih =>
    obtain ⟨k1, e⟩ := p
    simp only [List.cons_append, lookupTeam]
    split_ifs <;> simp [ih]

theorem lookupTeam_initTeam_none (td : TeamMap) (name : String) (g : ℚ) (k : String)
    (h : lookupTeam td name = none) :
    lookupTeam (initTeam td name g) k =
      if k = name then some ⟨[], 0, g⟩ else lookupTeam td k := by
  unfold initTeam
  rw [h, lookupTeam_append]
  split_ifs with hk
  · subst hk
    rw [h]
    simp [lookupTeam]
  · have hnk : ¬ name = k := fun hh => hk hh.symm
    cases hq : lookupTeam td k <;> simp [lookupTeam, hq, hnk]

theorem lookupTeam_initTeam_some (td : TeamMap) (name : String) (g : ℚ) (k : String)
    (e : TeamAggregate) (h : lookupTeam td name = some e) :
    lookupTeam (initTeam td name g) k =
      if k = name then some ⟨e.members, e.total, g⟩ else lookupTeam td k := by
  unfold initTeam
  rw [h, lookupTeam_updateTeam]

theorem lookupTeam_addMembers (ms : List MemberRecord) (td : TeamMap) (name : String)
    (e : TeamAggregate) (h : lookupTeam td name = some e) (k : String) :
    lookupTeam (ms.foldl (addMember name) td) k =
      if k = name then
        some ⟨e.members ++ ms.map MemberRecord.full_name, e.total + amountSum ms, e.team_gifts⟩
      else lookupTeam td k := by
  induction ms generalizing td e with
  | nil =>
    simp only [List.foldl_nil, List.map_nil, List.append_nil, amountSum, List.sum_nil, add_zero]
    split_ifs with hk
    · subst hk; rw [h]
    · rfl
  | cons m rest ih =>
    have h1 : lookupTeam (addMember name td m) name =
        some ⟨e.members ++ [m.full_name], e.total + m.amount, e.team_gifts⟩ := by
      simp [addMember, h, lookupTeam_updateTeam]
    rw [List.foldl_cons, ih _ _ h1]
    split_ifs with hk
    · simp [amountSum, add_assoc]
    · simp [addMember, h, lookupTeam_updateTeam, hk]

theorem lookupTeam_addGifts (td : TeamMap) (name : String) (g : ℚ)
    (e : TeamAggregate) (h : lookupTeam td name = some e) (k : String) :
    lookupTeam (addGifts td name g) k =
      if k = name then some ⟨e.members, e.total + g, e.team_gifts⟩
      else lookupTeam td k := by
  unfold addGifts
  rw [h, lookupTeam_updateTeam]

theorem lookupTeam_aggStep_none (td : TeamMap) (v : Visit) (k : String)
    (h : lookupTeam td v.team_name = none) :
    lookupTeam (aggStep td v) k =
      if k = v.team_name then
        some ⟨v.members.map MemberRecord.full_name,
          amountSum v.members + v.team_gifts, v.team_gifts⟩
      else lookupTeam td k := by
  unfold aggStep
  have hInitSelf : lookupTeam (initTeam td v.team_name v.team_gifts) v.team_name =
      some ⟨[], 0, v.team_gifts⟩ := by
    rw [lookupTeam_initTeam_none _ _ _ _ h, if_pos rfl]
  have hFoldSelf : lookupTeam
      (v.members.foldl (addMember v.team_name) (initTeam td v.team_name v.team_gifts))
      v.team_name =
      some ⟨v.members.map MemberRecord.full_name, amountSum v.members, v.team_gifts⟩ := by
    rw [lookupTeam_addMembers _ _ _ _ hInitSelf, if_pos rfl]
    simp
  rw [lookupTeam_addGifts _ _ _ _ hFoldSelf]
  split_ifs with hk
  · rfl
  · rw [lookupTeam_addMembers _ _ _ _ hInitSelf, if_neg hk,
      lookupTeam_initTeam_none _ _ _ _ h, if_neg hk]

theorem lookupTeam_aggStep_some (td : TeamMap) (v : Visit) (k : String)
    (e : TeamAggregate) (h : lookupTeam td v.team_name = some e) :
    lookupTeam (aggStep td v) k =
      if k = v.team_name then
        some ⟨e.members ++ v.members.map MemberRecord.full_name,
          e.total + amountSum v.members + v.team_gifts, v.team_gifts⟩
      else lookupTeam td k := by
  unfold aggStep
  have hInitSelf : lookupTeam (initTeam td v.team_name v.team_gifts) v.team_name =
      some ⟨e.members, e.total, v.team_gifts⟩ := by
    rw [lookupTeam_initTeam_some _ _ _ _ _ h, if_pos rfl]
  have hFoldSelf : lookupTeam
      (v.members.foldl (addMember v.team_name) (initTeam td v.team_name v.team_gifts))
      v.team_name =
      some ⟨e.members ++ v.members.map MemberRecord.full_name,
        e.total + amountSum v.members, v.team_gifts⟩ := by
    rw [lookupTeam_addMembers _ _ _ _ hInitSelf, if_pos rfl]
  rw [lookupTeam_addGifts _ _ _ _ hFoldSelf]
  split_ifs with hk
  · rfl
  · rw [lookupTeam_addMembers _ _ _ _ hInitSelf, if_neg hk,
      lookupTeam_initTeam_some _ _ _ _ _ h, if_neg hk]

theorem lookupTeam_aggStep_ne (td : TeamMap) (v : Visit) (k : String)
    (hk : ¬ k = v.team_name) :
    lookupTeam (aggStep td v) k = lookupTeam td k := by
  cases hprev : lookupTeam td v.team_name with
  | none => rw [lookupTeam_aggStep_none _ _ _ hprev, if_neg hk]
  | some e => rw [lookupTeam_aggStep_some _ _ _ _ hprev, if_neg hk]

theorem runAgg_eq (visits : List Visit) :
    runAgg visits = (visits.flatMap Visit.members, visits.foldl aggStep []) := by
  suffices h : ∀ pd td,
      visits.foldl (fun acc v => (acc.1 ++ v.members, aggStep acc.2 v)) (pd, td) =
        (pd ++ visits.flatMap Visit.members, visits.foldl aggStep td) by
    simpa [runAgg] using h [] []
  induction visits with
  | nil => simp
  | cons v t ih => intro pd td; simp [ih]

theorem runTeams_concat (visits : List Visit) (v : Visit) :
    runTeams (visits ++ [v]) = aggStep (runTeams visits) v := by
  simp [runTeams, runAgg_eq, List.foldl_append]

theorem visitsFor_concat (vs : List Visit) (v : Visit) (k : String) :
    visitsFor (vs ++ [v]) k =
      visitsFor vs k ++ if v.team_name = k then [v] else [] := by
  simp only [visitsFor, List.filter_append]
  congr 1
  split_ifs with h <;> simp [List.filter, h]

theorem memberNamesFor_concat (vs : List Visit) (v : Visit) (k : String) :
    memberNamesFor (vs ++ [v]) k =
      memberNamesFor vs k ++
        if v.team_name = k then v.members.map MemberRecord.full_name else [] := by
  simp only [memberNamesFor, visitsFor_concat]
  split_ifs with h <;> simp

theorem amountsFor_concat (vs : List Visit) (v : Visit) (k : String) :
    amountsFor (vs ++ [v]) k =
      amountsFor vs k + if v.team_name = k then amountSum v.members else 0 := by
  simp only [amountsFor, visitsFor_concat]
  split_ifs with h <;> simp

theorem giftsListFor_concat (vs : List Visit) (v : Visit) (k : String) :
    giftsListFor (vs ++ [v]) k =
      giftsListFor vs k ++ if v.team_name = k then [v.team_gifts] else [] := by
  simp only [giftsListFor, visitsFor_concat]
  split_ifs with h <;> simp

theorem giftsSumFor_concat (vs : List Visit) (v : Visit) (k : String) :
    giftsSumFor (vs ++ [v]) k =
      giftsSumFor vs k + if v.team_name = k then v.team_gifts else 0 := by
  simp only [giftsSumFor, giftsListFor_concat]
  split_ifs with h <;> simp

theorem runTeams_invariant (visits : List Visit) (k : String) :
    (lookupTeam (runTeams visits) k = none → visitsFor visits k = []) ∧
    (∀ agg, lookupTeam (runTeams visits) k = some agg →
      agg.members = memberNamesFor visits k ∧
      agg.total = amountsFor visits k + giftsSumFor visits k ∧
      (giftsListFor visits k).getLast? = some agg.team_gifts) := by
  induction visits using List.reverseRecOn with
  | nil => simp [runTeams, runAgg, lookupTeam, visitsFor]
  | append_singleton vs v ih =>
    rw [runTeams_concat]
    by_cases hk : k = v.team_name
    · cases hprev : lookupTeam (runTeams vs) k with
      | none =>
        have hemp : visitsFor vs k = [] := ih.1 hprev
        rw [lookupTeam_aggStep_none _ _ _ (hk ▸ hprev), if_pos hk]
        refine ⟨by simp, ?_⟩
        intro agg hagg
        obtain rfl := (Option.some.inj hagg).symm
        refine ⟨?_, ?_, ?_⟩
        · rw [memberNamesFor_concat, if_pos hk.symm]
          simp [memberNamesFor, hemp]
        · rw [amountsFor_concat, if_pos hk.symm, giftsSumFor_concat, if_pos hk.symm]
          simp [amountsFor, giftsSumFor, giftsListFor, hemp]
        · rw [giftsListFor_concat, if_pos hk.symm]
          simp
      | some e =>
        obtain ⟨hm, ht, hg⟩ := ih.2 e hprev
        rw [lookupTeam_aggStep_some _ _ _ _ (hk ▸ hprev), if_pos hk]
        refine ⟨by simp, ?_⟩
        intro agg hagg
        obtain rfl := (Option.some.inj hagg).symm
        refine ⟨?_, ?_, ?_⟩
        · rw [memberNamesFor_concat, if_pos hk.symm, hm]
        · rw [amountsFor_concat, if_pos hk.symm, giftsSumFor_concat, if_pos hk.symm, ht]
          ring
        · rw [giftsListFor_concat, if_pos hk.symm]
          simp
    · rw [lookupTeam_aggStep_ne _ _ _ hk]
      have hv : ¬ v.team_name = k := fun h => hk h.symm
      constructor
      · intro hnone
        rw [visitsFor_concat, if_neg hv, List.append_nil]
        exact ih.1 hnone
      · intro agg hagg
        obtain ⟨hm, ht, hg⟩ := ih.2 agg hagg
        refine ⟨?_, ?_, ?_⟩
        · rw [memberNamesFor_concat, if_neg hv, List.append_nil, hm]
        · rw [amountsFor_concat, if_neg hv, giftsSumFor_concat, if_neg hv]
          simpa using ht
        · rw [giftsListFor_concat, if_neg hv, List.append_nil]
          exact hg

/-- C2 (amended): after the aggregation loop, every TeamAggregate's total
equals the sum of the amounts of the member records folded into that team
plus the sum of the team_gifts values of ALL the visits recorded under that
team name; the claim's equation with the aggregate's team_gifts field holds
whenever the team name was visited at most once.  (As literally stated the
claim fails for repeated team names, see the counterexample.) -/
theorem C2_team_total (visits : List Visit) (k : String) (agg : TeamAggregate)
    (h : lookupTeam (runTeams visits) k = some agg) :
    agg.total = amountsFor visits k + giftsSumFor visits k ∧
    ((visitsFor visits k).length ≤ 1 →
      agg.total = amountsFor visits k + agg.team_gifts) := by
  obtain ⟨hm, ht, hg⟩ := (runTeams_invariant visits k).2 agg h
  refine ⟨ht, fun hlen => ?_⟩
  have hne : visitsFor visits k ≠ [] := by
    intro hemp
    rw [giftsListFor, hemp] at hg
    simp at hg
  have hlen1 : (visitsFor visits k).length = 1 := by
    have := List.length_pos.mpr hne
    omega
  obtain ⟨x, hx⟩ := List.length_eq_one.mp hlen1
  have h1 : giftsListFor visits k = [x.team_gifts] := by simp [giftsListFor, hx]
  rw [h1] at hg
  simp only [List.getLast?_singleton, Option.some.injEq] at hg
  rw [ht, giftsSumFor, h1]
  simp [hg]

/-- Witness for C2: one team with one member of amount 45 and team gifts 60
ends with total 105 = 45 + 60. -/
theorem C2_team_total_witness :
    (TeamAggregate.mk ["Alice"] 105 60).total =
      amountsFor [Visit.mk "A" [MemberRecord.mk "Alice" 45 "A"] 60] "A" +
      giftsSumFor [Visit.mk "A" [MemberRecord.mk "Alice" 45 "A"] 60] "A" :=
  (C2_team_total [Visit.mk "A" [MemberRecord.mk "Alice" 45 "A"] 60] "A"
    (TeamAggregate.mk ["Alice"] 105 60) (by with_unfolding_all decide)).1

/-- Counterexample to C2 as stated: visiting team name "A" twice, first with
team gifts 5 and then with team gifts 0 (no members at all), leaves the
aggregate at total 5 while the sum of member amounts plus the aggregate's
team_gifts field is 0 + 0. -/
theorem C2_team_total_cex :
    lookupTeam (runTeams [Visit.mk "A" [] 5, Visit.mk "A" [] 0]) "A" =
      some (TeamAggregate.mk [] 5 0) ∧
    ¬ (TeamAggregate.mk [] 5 0).total =
        amountsFor [Visit.mk "A" [] 5, Visit.mk "A" [] 0] "A" +
        (TeamAggregate.mk [] 5 0).team_gifts := by
  with_unfolding_all decide

/-- C3: per team visit, the aggregate entry is created on first sight with
empty members, total 0 and that visit's team_gifts; on a repeat sight only
the team_gifts field is overwritten, while the visit's members are appended,
their amounts summed into the total, and the visit's team_gifts value is
added to the total exactly once. -/
theorem C3_aggregation_rule (td : TeamMap) (v : Visit) :
    (lookupTeam td v.team_name = none →
      lookupTeam (initTeam td v.team_name v.team_gifts) v.team_name =
        some ⟨[], 0, v.team_gifts⟩ ∧
      lookupTeam (aggStep td v) v.team_name =
        some ⟨v.members.map MemberRecord.full_name,
          amountSum v.members + v.team_gifts, v.team_gifts⟩) ∧
    (∀ e, lookupTeam td v.team_name = some e →
      lookupTeam (initTeam td v.team_name v.team_gifts) v.team_name =
        some ⟨e.members, e.total, v.team_gifts⟩ ∧
      lookupTeam (aggStep td v) v.team_name =
        some ⟨e.members ++ v.members.map MemberRecord.full_name,
          e.total + amountSum v.members + v.team_gifts, v.team_gifts⟩) := by
  constructor
  · intro h
    constructor
    · rw [lookupTeam_initTeam_none _ _ _ _ h, if_pos rfl]
    · rw [lookupTeam_aggStep_none _ _ _ h, if_pos rfl]
  · intro e h
    constructor
    · rw [lookupTeam_initTeam_some _ _ _ _ _ h, if_pos rfl]
    · rw [lookupTeam_aggStep_some _ _ _ _ h, if_pos rfl]

/-- Witness for C3: first sight of team "A" with one member Bob (amount 10)
and team gifts 7. -/
theorem C3_aggregation_rule_witness :
    lookupTeam (initTeam [] "A" 7) "A" = some ⟨[], 0, 7⟩ ∧
    lookupTeam (aggStep [] (Visit.mk "A" [MemberRecord.mk "Bob" 10 "A"] 7)) "A" =
      some ⟨List.map MemberRecord.full_name [MemberRecord.mk "Bob" 10 "A"],
        amountSum [MemberRecord.mk "Bob" 10 "A"] + 7, 7⟩ :=
  (C3_aggregation_rule [] (Visit.mk "A" [MemberRecord.mk "Bob" 10 "A"] 7)).1 rfl

theorem processBlocks_concat (team : String) (bs : List Block) (b : Block) :
    processBlocks team (bs ++ [b]) = processBlock team (processBlocks team bs) b := by
  simp [processBlocks, List.foldl_append]

set_option maxRecDepth 6000 in
theorem parseFloat_dollars_eval :
    parseFloat (stripAmount "$1,234.50") = some 1234.5 := by
  with_unfolding_all decide

theorem parseAmount_dollars_eval : parseAmount "$1,234.50" = 1234.5 := by
  rw [parseAmount, parseFloat_dollars_eval]
  rfl

set_option maxRecDepth 6000 in
theorem parseFloat_abc_eval : parseFloat (stripAmount "abc") = none := by
  with_unfolding_all decide

set_option maxRecDepth 6000 in
theorem parseAmount_five_eval : parseAmount "$5" = 5 := by
  with_unfolding_all decide

set_option maxRecDepth 6000 in
theorem parseAmount_seven_eval : parseAmount "$7" = 7 := by
  with_unfolding_all decide

theorem processBlocks_gift_five_eval :
    processBlocks "T" [Block.mk (some "Team Gifts") (some "$5")] =
      (([] : List MemberRecord), (5 : ℚ)) := by
  show (([] : List MemberRecord), parseAmount "$5") =
    (([] : List MemberRecord), (5 : ℚ))
  rw [parseAmount_five_eval]

theorem processBlocks_alice_eval :
    processBlocks "T" [Block.mk (some "Alice") (some "$1,234.50")] =
      ([MemberRecord.mk "Alice" 1234.5 "T"], (0 : ℚ)) := by
  show (([] : List MemberRecord) ++
      [MemberRecord.mk (pyStrip "Alice") (parseAmount "$1,234.50") "T"], (0 : ℚ)) =
    ([MemberRecord.mk "Alice" 1234.5 "T"], (0 : ℚ))
  rw [parseAmount_dollars_eval]
  simp [show pyStrip "Alice" = "Alice" from by decide]

/-- C4: the amount text is cleaned of the currency symbol and thousands
separators and parsed as a decimal, so "$1,234.50" parses to exactly
1234.50; when parsing of the cleaned text fails, the member record is still
produced, with amount 0.0. -/
theorem C4_amount_parsing :
    parseAmount "$1,234.50" = 1234.5 ∧
    ∀ (bs : List Block) (team nt amt : String),
      parseFloat (stripAmount amt) = none →
      ¬ pyLower (pyStrip nt) = "team gifts" →
      processBlocks team (bs ++ [Block.mk (some nt) (some amt)]) =
        ((processBlocks team bs).1 ++ [MemberRecord.mk (pyStrip nt) 0 team],
          (processBlocks team bs).2) := by
  constructor
  · exact parseAmount_dollars_eval
  · intro bs team nt amt hfail hname
    rw [processBlocks_concat]
    simp [processBlock, hname, parseAmount, hfail]

/-- Witness for C4: a block named Bob whose amount text "abc" fails to
parse is kept as a member with amount 0. -/
theorem C4_amount_parsing_witness :
    processBlocks "T" ([] ++ [Block.mk (some "Bob") (some "abc")]) =
      ((processBlocks "T" []).1 ++ [MemberRecord.mk (pyStrip "Bob") 0 "T"],
        (processBlocks "T" []).2) :=
  C4_amount_parsing.2 [] "T" "Bob" "abc" parseFloat_abc_eval (by decide)

/-- C5: a block whose trimmed name lowercases to "team gifts" contributes
its amount as the team_gifts value and produces no member record; appended
after any earlier blocks (team-gifts blocks included), its amount is the
final team_gifts value, so the last such block wins. -/
theorem C5_team_gifts_block (bs : List Block) (team nt amt : String)
    (hname : pyLower (pyStrip nt) = "team gifts") :
    processBlocks team (bs ++ [Block.mk (some nt) (some amt)]) =
      ((processBlocks team bs).1, parseAmount amt) := by
  rw [processBlocks_concat]
  simp [processBlock, hname]

/-- Witness for C5: two team-gifts blocks; the page ends with team_gifts 7,
the amount of the later block, and no member record. -/
theorem C5_team_gifts_block_witness :
    processBlocks "T"
      ([Block.mk (some "Team Gifts") (some "$5")] ++
        [Block.mk (some " team GIFTS ") (some "$7")]) =
      (([] : List MemberRecord), (7 : ℚ)) := by
  rw [C5_team_gifts_block _ _ _ _ (by decide), processBlocks_gift_five_eval,
    parseAmount_seven_eval]

theorem mem_processBlocks (team : String) (bs : List Block) (m : MemberRecord)
    (hm : m ∈ (processBlocks team bs).1) :
    ∃ b ∈ bs, ∃ s, b.amountText = some s ∧ m.amount = parseAmount s := by
  induction bs using List.reverseRecOn with
  | nil => simp [processBlocks] at hm
  | append_singleton bs b ih =>
    rw [processBlocks_concat] at hm
    obtain ⟨nt, amt⟩ := b
    have extend : (∃ b ∈ bs, ∃ s, b.amountText = some s ∧ m.amount = parseAmount s) →
        ∃ b ∈ bs ++ [Block.mk nt amt], ∃ s, b.amountText = some s ∧
          m.amount = parseAmount s := by
      rintro ⟨b, hb, s, hs, ha⟩
      exact ⟨b, List.mem_append_left _ hb, s, hs, ha⟩
    cases nt with
    | none => exact extend (ih hm)
    | some nt =>
      cases amt with
      | none => exact extend (ih hm)
      | some amt =>
        by_cases hg : pyLower (pyStrip nt) = "team gifts"
        · simp only [processBlock, hg, if_pos] at hm
          exact extend (ih hm)
        · simp only [processBlock, if_neg hg] at hm
          rcases List.mem_append.mp hm with hold | hnew
          · exact extend (ih hold)
          · refine ⟨Block.mk (some nt) (some amt),
              List.mem_append_right _ (List.mem_singleton.mpr rfl), amt, rfl, ?_⟩
            rw [List.mem_singleton.mp hnew]

/-- C9 (amended): every member record produced by the block loop has a
non-negative amount, provided no block's cleaned amount text parses to a
negative value; in particular a parse failure still yields the non-negative
amount 0.0.  (As literally stated, for EVERY possible amount text, the claim
fails: an amount text denoting a negative number is parsed and kept, see the
counterexample.) -/
theorem C9_member_amount_nonneg (bs : List Block) (team : String)
    (h : ∀ b ∈ bs, ∀ s, b.amountText = some s →
      ∀ q, parseFloat (stripAmount s) = some q → 0 ≤ q)
    (m : MemberRecord) (hm : m ∈ (processBlocks team bs).1) :
    0 ≤ m.amount := by
  obtain ⟨b, hb, s, hs, hamt⟩ := mem_processBlocks team bs m hm
  rw [hamt, parseAmount]
  cases hp : parseFloat (stripAmount s) with
  | none => simp
  | some q => simpa using h b hb s hs q hp

/-- Witness for C9: the single block "Alice" / "$1,234.50" yields the
member amount 1234.5, which is non-negative. -/
theorem C9_member_amount_nonneg_witness :
    (0 : ℚ) ≤ (MemberRecord.mk "Alice" 1234.5 "T").amount :=
  C9_member_amount_nonneg [Block.mk (some "Alice") (some "$1,234.50")] "T"
    (by
      intro b hb s hs q hq
      simp only [List.mem_singleton] at hb
      subst hb
      injection hs with hs
      subst hs
      rw [parseFloat_dollars_eval] at hq
      injection hq with hq
      rw [← hq]
      norm_num)
    (MemberRecord.mk "Alice" 1234.5 "T")
    (by rw [processBlocks_alice_eval]; exact List.mem_singleton.mpr rfl)

set_option maxRecDepth 6000 in
/-- Counterexample to C9 as stated: a block whose amount text is "-5" is
kept as a member record with the negative amount -5. -/
theorem C9_member_amount_cex :
    (processBlocks "T" [Block.mk (some "Bob") (some "-5")]).1 =
      [MemberRecord.mk "Bob" (-5) "T"] ∧
    (MemberRecord.mk "Bob" (-5) "T").amount < 0 := by
  with_unfolding_all decide

/-- C6: the team name is resolved by the ordered fallback chain primary
header, then secondary header, then the literal "Unknown Team"; every page
yields exactly one of these three outcomes and resolution is total, so
extraction never aborts on a missing header. -/
theorem C6_team_name_fallback (p : DetailPage) :
    (∃ t, p.primaryHeader = some t ∧ resolveTeamName p = pyStrip t) ∨
    (p.primaryHeader = none ∧
      ∃ t, p.secondaryHeader = some t ∧ resolveTeamName p = pyStrip t) ∨
    (p.primaryHeader = none ∧ p.secondaryHeader = none ∧
      resolveTeamName p = "Unknown Team") := by
  obtain ⟨ph, sh, mb⟩ := p
  cases ph with
  | some t => exact Or.inl ⟨t, rfl, rfl⟩
  | none =>
    cases sh with
    | some t => exact Or.inr (Or.inl ⟨rfl, t, rfl, rfl⟩)
    | none => exact Or.inr (Or.inr ⟨rfl, rfl, rfl⟩)

/-- C7: when the member-block container cannot be located, extraction
returns ([], 0.0) for the team; such a visit adds no participant rows, and
(first sight of that team name) leaves the team entry at members [],
total 0, team_gifts 0, whose team row therefore shows gifts 0.0, total 0.0
and calculate_tickets 0 = 0 raffle tickets. -/
theorem C7_container_timeout (p : DetailPage) (td : TeamMap)
    (hc : p.memberBlocks = none)
    (hnew : lookupTeam td (resolveTeamName p) = none) :
    scrape_team_members p = (resolveTeamName p, [], 0) ∧
    (∀ visits : List Visit,
      (runAgg (visits ++ [Visit.mk (resolveTeamName p) [] 0])).1 =
        (runAgg visits).1) ∧
    lookupTeam (aggStep td (Visit.mk (resolveTeamName p) [] 0))
      (resolveTeamName p) = some ⟨[], 0, 0⟩ ∧
    buildTeamRows [(resolveTeamName p, TeamAggregate.mk [] 0 0)] =
      [TeamRow.mk (resolveTeamName p) "" 0 0 0 ""] := by
  refine ⟨?_, ?_, ?_, ?_⟩
  · unfold scrape_team_members
    rw [hc]
  · intro visits
    simp [runAgg_eq]
  · rw [lookupTeam_aggStep_none td (Visit.mk (resolveTeamName p) [] 0)
      (resolveTeamName p) hnew, if_pos rfl]
    simp [amountSum]
  · have h0 : calculate_tickets 0 = 0 := by
      rw [calculate_tickets, if_pos (by norm_num)]
    simp [buildTeamRows, h0]
    rfl

/-- Witness for C7: a page with a header but no member container, folded
into an empty team_data. -/
theorem C7_container_timeout_witness :
    scrape_team_members (DetailPage.mk (some "A") none none) =
      (resolveTeamName (DetailPage.mk (some "A") none none), [], 0) ∧
    lookupTeam
      (aggStep []
        (Visit.mk (resolveTeamName (DetailPage.mk (some "A") none none)) [] 0))
      (resolveTeamName (DetailPage.mk (some "A") none none)) =
      some ⟨[], 0, 0⟩ := by
  have h := C7_container_timeout (DetailPage.mk (some "A") none none) [] rfl rfl
  exact ⟨h.1, h.2.2.1⟩

/-- C8: in the built report, every participant row's ticket count is the
ticket calculator applied to that participant's own amount, and every team
row's ticket count is the calculator applied to the team's team_gifts field,
not to its total. -/
theorem C8_ticket_columns (pd : List MemberRecord) (td : TeamMap) :
    (buildParticipantRows pd).map ParticipantRow.raffle_tickets =
      pd.map (fun p => calculate_tickets p.amount) ∧
    (buildTeamRows td).map TeamRow.raffle_tickets =
      td.map (fun e => calculate_tickets e.2.team_gifts) := by
  constructor <;> simp [buildParticipantRows, buildTeamRows, List.map_map, Function.comp]

end RelayForLife
